import Mathlib

/-!
Verification of the backup / encryption / rate-limiting core of the
multi-platform bot system.

The JavaScript sources are shallowly embedded: byte buffers (`Buffer`)
become lists of natural numbers, the external gzip codec (`node:zlib`)
and AES-256-GCM cipher (`node:crypto`) become abstract operation records
whose library contracts appear as explicit hypotheses, asynchronous
cloud calls (DynamoDB, Google Cloud Storage, Discord webhooks) become an
environment of `Except`-valued results together with an explicit trace
of attempted and completed side effects, and `Date.now()` timestamps
become natural-number milliseconds.
-/

namespace BotSystem

/-- Byte buffers (Node `Buffer`) are modelled as lists of naturals, one
entry per byte. -/
abbrev Bytes := List Nat

/-- Abstract interface for the gzip codec supplied by `node:zlib`
(`createGzip` / `createGunzip`), an external dependency of the
repository.  `decompress` returns `none` when `gunzip` would emit an
error event. -/
structure Codec where
  compress : Bytes → Bytes
  decompress : Bytes → Option Bytes

/-- Abstract interface for AES-256-GCM as supplied by `node:crypto`:
`enc key iv pt` is `cipher.update(pt) ++ cipher.final()`,
`tagOf key iv pt` is `cipher.getAuthTag()` (16 bytes), and
`dec key iv ct tag` is the deciphered plaintext, `none` when
`decipher.final()` throws because the authentication tag does not
verify. -/
structure AEAD where
  enc : Bytes → Bytes → Bytes → Bytes
  tagOf : Bytes → Bytes → Bytes → Bytes
  dec : Bytes → Bytes → Bytes → Bytes → Option Bytes

/-- Error message `node:crypto` raises on a GCM tag mismatch. -/
def tagMismatchMsg : String := "Unsupported state or unable to authenticate data"

/-- Error message `node:zlib` raises on a corrupted gzip stream. -/
def gunzipErrorMsg : String := "incorrect header check"

/-- Embedding of `GCSUtils.compressAndEncrypt`: gzip-compress `data`,
then AES-256-GCM
encrypt it and return `Buffer.concat([iv, cipher.update(compressed),
cipher.final(), cipher.getAuthTag()])`.  The fresh random IV
(`randomBytes(16)`) is passed in as the `iv` argument. -/
def compressAndEncrypt (C : Codec) (A : AEAD) (key iv data : Bytes) : Bytes :=
  let compressed := C.compress data
  iv ++ A.enc key iv compressed ++ A.tagOf key iv compressed

/-- Embedding of `GCSUtils.decryptAndDecompress`: split the artifact as
`iv = data.slice(0, 16)`, `authTag = data.slice(-16)`,
`encrypted = data.slice(16, -16)` (the truncated `Nat` subtractions
reproduce the clamping of negative JavaScript `slice` offsets), decrypt
verifying the tag, then gunzip. -/
def decryptAndDecompress (C : Codec) (A : AEAD) (key data : Bytes) :
    Except String Bytes :=
  let iv := data.take 16
  let authTag := data.drop (data.length - 16)
  let encrypted := (data.drop 16).take (data.length - 32)
  match A.dec key iv encrypted authTag with
  | none => Except.error tagMismatchMsg
  | some decrypted =>
      match C.decompress decrypted with
      | none => Except.error gunzipErrorMsg
      | some out => Except.ok out

/-- Splitting an `iv ++ ct ++ tag` concatenation at the fixed offsets
used by `decryptAndDecompress` recovers the three components. -/
theorem artifact_split (iv ct tg : Bytes) (hiv : iv.length = 16)
    (htg : tg.length = 16) :
    (iv ++ ct ++ tg).take 16 = iv ∧
    (iv ++ ct ++ tg).drop ((iv ++ ct ++ tg).length - 16) = tg ∧
    ((iv ++ ct ++ tg).drop 16).take ((iv ++ ct ++ tg).length - 32) = ct := by
  have hlen : (iv ++ ct ++ tg).length = 16 + (ct.length + 16) := by
    simp [List.length_append, hiv, htg]
  refine ⟨?_, ?_, ?_⟩
  · rw [← hiv, List.append_assoc]
    exact List.take_left iv (ct ++ tg)
  · have h1 : (iv ++ ct ++ tg) = (iv ++ ct) ++ tg := by
      rw [List.append_assoc]
    have h2 : (iv ++ ct ++ tg).length - 16 = (iv ++ ct).length := by
      rw [hlen]
      simp [List.length_append, hiv]
      omega
    rw [h2, h1]
    exact List.drop_left (iv ++ ct) tg
  · have h2 : (iv ++ ct ++ tg).length - 32 = ct.length := by
      rw [hlen]; omega
    have h3 : (iv ++ ct ++ tg).drop 16 = ct ++ tg := by
      rw [List.append_assoc, ← hiv]
      exact List.drop_left iv (ct ++ tg)
    rw [h2, h3]
    exact List.take_left ct tg

/-- Core round-trip fact: decoding the exact artifact produced by
`compressAndEncrypt` recovers the plaintext, given the library contracts
for the cipher and the codec. -/
theorem decode_encode_aux (C : Codec) (A : AEAD) (key iv b : Bytes)
    (hiv : iv.length = 16)
    (htag : (A.tagOf key iv (C.compress b)).length = 16)
    (hdec : A.dec key iv (A.enc key iv (C.compress b))
      (A.tagOf key iv (C.compress b)) = some (C.compress b))
    (hrt : C.decompress (C.compress b) = some b) :
    decryptAndDecompress C A key (compressAndEncrypt C A key iv b) =
      Except.ok b := by
  obtain ⟨h1, h2, h3⟩ :=
    artifact_split iv (A.enc key iv (C.compress b))
      (A.tagOf key iv (C.compress b)) hiv htag
  unfold decryptAndDecompress compressAndEncrypt
  simp only []
  rw [h1, h2, h3, hdec]
  simp [hrt]

/-- C1.  Codec round-trip: for every byte buffer `b` (the empty buffer
included) and every 32-byte key, decoding with `decryptAndDecompress`
(split off the 16-byte IV and 16-byte tag, AES-256-GCM decrypt, gunzip)
the artifact produced by `compressAndEncrypt` (gzip then AES-256-GCM
encrypt under a fresh 16-byte IV) with the same key returns exactly `b`,
assuming the `node:crypto` / `node:zlib` contracts stated as
hypotheses. -/
theorem c1_codec_roundtrip (C : Codec) (A : AEAD) (key iv b : Bytes)
    (_hkey : key.length = 32) (hiv : iv.length = 16)
    (htag : (A.tagOf key iv (C.compress b)).length = 16)
    (hdec : A.dec key iv (A.enc key iv (C.compress b))
      (A.tagOf key iv (C.compress b)) = some (C.compress b))
    (hrt : C.decompress (C.compress b) = some b) :
    decryptAndDecompress C A key (compressAndEncrypt C A key iv b) =
      Except.ok b :=
  decode_encode_aux C A key iv b hiv htag hdec hrt

/-- Toy stand-in for the gzip codec, used to instantiate the codec
contract on concrete inputs: prepend the two gzip magic bytes, strip
them again on decompression. -/
def toyCodec : Codec where
  compress b := 31 :: 139 :: b
  decompress b :=
    match b with
    | 31 :: 139 :: rest => some rest
    | _ => none

/-- Checksum tag of the toy authenticated cipher. -/
def toyTag (key iv ct : Bytes) : Bytes :=
  ((key.sum + iv.sum + ct.sum) % 256) :: List.replicate 15 0

/-- Toy stand-in for AES-256-GCM, used to instantiate the cipher
contract on concrete inputs: the ciphertext is the plaintext and the
16-byte tag carries a checksum of key, IV and ciphertext that decryption
recomputes and compares. -/
def toyAEAD : AEAD where
  enc _ _ pt := pt
  tagOf := toyTag
  dec key iv ct tg := if tg = toyTag key iv ct then some ct else none

/-- C1 witness: the round-trip theorem applied to the empty buffer and
to a two-byte buffer under the toy codec and cipher, with every
hypothesis checked on the concrete data. -/
theorem c1_codec_roundtrip_witness :
    decryptAndDecompress toyCodec toyAEAD (List.replicate 32 0)
      (compressAndEncrypt toyCodec toyAEAD (List.replicate 32 0)
        (List.replicate 16 0) []) = Except.ok [] ∧
    decryptAndDecompress toyCodec toyAEAD (List.replicate 32 0)
      (compressAndEncrypt toyCodec toyAEAD (List.replicate 32 0)
        (List.replicate 16 0) [7, 42]) = Except.ok [7, 42] :=
  ⟨c1_codec_roundtrip toyCodec toyAEAD (List.replicate 32 0)
      (List.replicate 16 0) [] (by decide) (by decide) (by decide)
      (by decide) (by decide),
    c1_codec_roundtrip toyCodec toyAEAD (List.replicate 32 0)
      (List.replicate 16 0) [7, 42] (by decide) (by decide) (by decide)
      (by decide) (by decide)⟩

/-- If AES-256-GCM rejects the components sliced out of an artifact,
`decryptAndDecompress` fails with the tag-mismatch error no matter what
the codec would do: decompression is never consulted. -/
theorem decode_fails (D : Codec) (A : AEAD) (key ivx ctx tgx : Bytes)
    (hiv : ivx.length = 16) (htg : tgx.length = 16)
    (hdec : A.dec key ivx ctx tgx = none) :
    decryptAndDecompress D A key (ivx ++ ctx ++ tgx) =
      Except.error tagMismatchMsg := by
  obtain ⟨h1, h2, h3⟩ := artifact_split ivx ctx tgx hiv htg
  unfold decryptAndDecompress
  simp only []
  rw [h1, h2, h3, hdec]

/-- Single-byte corruption of an `iv ++ ct ++ tg` concatenation lands in
exactly one of the three components, and if the cipher rejects every
such corrupted component, decoding the corrupted artifact fails with the
tag-mismatch error. -/
theorem tamper_aux (D : Codec) (A : AEAD) (key iv ct tg : Bytes)
    (hiv : iv.length = 16) (htag : tg.length = 16)
    (hrejIv : ∀ j, j < 16 → ∀ v, v < 256 → v ≠ iv.getD j 0 →
      A.dec key (iv.set j v) ct tg = none)
    (hrejCt : ∀ j, j < ct.length → ∀ v, v < 256 → v ≠ ct.getD j 0 →
      A.dec key iv (ct.set j v) tg = none)
    (hrejTg : ∀ j, j < 16 → ∀ v, v < 256 → v ≠ tg.getD j 0 →
      A.dec key iv ct (tg.set j v) = none) :
    ∀ j, j < (iv ++ ct ++ tg).length → ∀ v, v < 256 →
      v ≠ (iv ++ ct ++ tg).getD j 0 →
      decryptAndDecompress D A key ((iv ++ ct ++ tg).set j v) =
        Except.error tagMismatchMsg := by
  intro j hj v hv hne
  have hlen2 : (iv ++ ct).length = 16 + ct.length := by
    simp [List.length_append, hiv]
  rcases Nat.lt_or_ge j (iv ++ ct).length with hlt | hge
  · rw [List.set_append_left _ _ hlt]
    rw [List.getD_append _ _ _ _ hlt] at hne
    rcases Nat.lt_or_ge j iv.length with hlt2 | hge2
    · rw [List.set_append_left _ _ hlt2]
      rw [List.getD_append _ _ _ _ hlt2] at hne
      exact decode_fails D A key (iv.set j v) ct tg
        (by rw [List.length_set]; exact hiv) htag
        (hrejIv j (by omega) v hv hne)
    · rw [List.set_append_right _ _ hge2]
      rw [List.getD_append_right _ _ _ _ hge2] at hne
      rw [hiv] at hne hge2 ⊢
      have hjct : j - 16 < ct.length := by omega
      exact decode_fails D A key iv (ct.set (j - 16) v) tg hiv htag
        (hrejCt (j - 16) hjct v hv hne)
  · rw [List.set_append_right _ _ hge]
    rw [List.getD_append_right _ _ _ _ hge] at hne
    have hartlen : (iv ++ ct ++ tg).length = (iv ++ ct).length + 16 := by
      simp [List.length_append, htag]
      omega
    have hk : j - (iv ++ ct).length < 16 := by omega
    exact decode_fails D A key iv ct (tg.set (j - (iv ++ ct).length) v) hiv
      (by rw [List.length_set]; exact htag)
      (hrejTg _ hk v hv hne)

/-- C2.  Tamper detection: for every artifact produced by
`compressAndEncrypt` under a key, changing any single byte of the
artifact (in particular flipping any single bit) causes
`decryptAndDecompress` under the same key to fail with the
authentication-tag-mismatch error before any decompression is attempted
— the conclusion holds for every codec `D`, so the gunzip stage is never
consulted — and a tag mismatch is never silently ignored.  The
hypotheses state the GCM authentication contract: the cipher rejects any
single-byte corruption of the IV, ciphertext or tag of a genuine
encryption. -/
theorem c2_tamper_detection (C : Codec) (A : AEAD) (key iv b : Bytes)
    (hiv : iv.length = 16)
    (htag : (A.tagOf key iv (C.compress b)).length = 16)
    (hrejIv : ∀ j, j < 16 → ∀ v, v < 256 → v ≠ iv.getD j 0 →
      A.dec key (iv.set j v) (A.enc key iv (C.compress b))
        (A.tagOf key iv (C.compress b)) = none)
    (hrejCt : ∀ j, j < (A.enc key iv (C.compress b)).length → ∀ v, v < 256 →
      v ≠ (A.enc key iv (C.compress b)).getD j 0 →
      A.dec key iv ((A.enc key iv (C.compress b)).set j v)
        (A.tagOf key iv (C.compress b)) = none)
    (hrejTg : ∀ j, j < 16 → ∀ v, v < 256 →
      v ≠ (A.tagOf key iv (C.compress b)).getD j 0 →
      A.dec key iv (A.enc key iv (C.compress b))
        ((A.tagOf key iv (C.compress b)).set j v) = none) :
    ∀ j, j < (compressAndEncrypt C A key iv b).length → ∀ v, v < 256 →
      v ≠ (compressAndEncrypt C A key iv b).getD j 0 →
      ∀ D : Codec,
        decryptAndDecompress D A key
          ((compressAndEncrypt C A key iv b).set j v) =
            Except.error tagMismatchMsg := by
  intro j hj v hv hne D
  exact tamper_aux D A key iv (A.enc key iv (C.compress b))
    (A.tagOf key iv (C.compress b)) hiv htag hrejIv hrejCt hrejTg j hj v hv hne

set_option maxRecDepth 8000
set_option maxHeartbeats 3200000

/-- C2 witness: the tamper-detection theorem applied to the toy codec
and toy checksum cipher on the empty plaintext, with the single-byte
rejection hypotheses checked exhaustively on the concrete artifact, and
the conclusion instantiated at a corruption of the first IV byte. -/
theorem c2_tamper_detection_witness :
    decryptAndDecompress toyCodec toyAEAD []
      ((compressAndEncrypt toyCodec toyAEAD [] (List.replicate 16 0) []).set 0 1) =
      Except.error tagMismatchMsg :=
  c2_tamper_detection toyCodec toyAEAD [] (List.replicate 16 0) []
    (by decide) (by decide) (by decide) (by decide) (by decide)
    0 (by decide) 1 (by decide) (by decide) toyCodec

/-! ## Rate limiter (`RateLimiter` in the moderation utilities) -/

/-- The per-action limit table together with the `limits[action] || 10`
fallback of `RateLimiter.isAllowed`. -/
def limitFor (action : String) : Nat :=
  if action = "message" then 30
  else if action = "command" then 10
  else if action = "export" then 2
  else 10

/-- JavaScript `Map<string, number[]>` read, `this.requests.get(key)`
combined with the `|| []` default: the map is embedded as an
insertion-ordered association list. -/
def mapGet (m : List (String × List Nat)) (k : String) : List Nat :=
  match m with
  | [] => []
  | p :: rest => if p.1 = k then p.2 else mapGet rest k

/-- JavaScript `this.requests.set(key, v)`: replace the entry in place
when the key is present, otherwise append a new entry. -/
def mapSet (m : List (String × List Nat)) (k : String) (v : List Nat) :
    List (String × List Nat) :=
  match m with
  | [] => [(k, v)]
  | p :: rest => if p.1 = k then (k, v) :: rest else p :: mapSet rest k v

/-- The in-memory rate-limiter state: the `requests` map from
`"userId:action"` keys to request timestamps in milliseconds. -/
structure RateLimiter where
  requests : List (String × List Nat)

/-- Embedding of `RateLimiter.isAllowed`: purge entries older than
60,000 ms, compare the remaining count against the per-action limit, and
either record the current timestamp and return `true` or leave the map
untouched and return `false`.  `now` is the injected `Date.now()`
value. -/
def RateLimiter.isAllowed (rl : RateLimiter) (now : Nat)
    (userId action : String) : Bool × RateLimiter :=
  let key := userId ++ ":" ++ action
  let userRequests := mapGet rl.requests key
  let recentRequests := userRequests.filter (fun time => now - time < 60000)
  let limit := limitFor action
  if limit ≤ recentRequests.length then (false, rl)
  else (true, ⟨mapSet rl.requests key (recentRequests ++ [now])⟩)

/-- Embedding of `RateLimiter.cleanup`: for every key keep only the
timestamps
younger than 60,000 ms and delete entries that become empty. -/
def RateLimiter.cleanup (rl : RateLimiter) (now : Nat) : RateLimiter :=
  ⟨rl.requests.filterMap (fun p =>
    let recentTimes := p.2.filter (fun time => now - time < 60000)
    if recentTimes.length = 0 then none else some (p.1, recentTimes))⟩

/-- Run a sequence of `isAllowed` calls, each given as
`(Date.now() value, userId, action)`, returning the list of boolean
results and the final limiter state. -/
def runCalls (rl : RateLimiter) :
    List (Nat × String × String) → List Bool × RateLimiter
  | [] => ([], rl)
  | c :: rest =>
    let r := rl.isAllowed c.1 c.2.1 c.2.2
    let q := runCalls r.2 rest
    (r.1 :: q.1, q.2)

theorem mapGet_mapSet (m : List (String × List Nat)) (k : String)
    (v : List Nat) : mapGet (mapSet m k v) k = v := by
  induction m with
  | nil => simp [mapSet, mapGet]
  | cons p rest ih =>
    by_cases h : p.1 = k <;> simp [mapSet, mapGet, h, ih]

/-- The single-key trajectory of the limiter: `runKey limit cur ts`
reproduces the results of successive `isAllowed` calls at times `ts` on
one key whose stored list is currently `cur`. -/
def runKey (limit : Nat) (cur : List Nat) : List Nat → List Bool
  | [] => []
  | t :: ts =>
    let recent := cur.filter (fun time => t - time < 60000)
    if limit ≤ recent.length then false :: runKey limit cur ts
    else true :: runKey limit (recent ++ [t]) ts

/-- A run of `isAllowed` calls that all target the same user and action
behaves like the single-key trajectory of the stored list of that key. -/
theorem runCalls_single (u a : String) (ts : List Nat) (rl : RateLimiter) :
    (runCalls rl (ts.map (fun t => (t, u, a)))).1 =
      runKey (limitFor a) (mapGet rl.requests (u ++ ":" ++ a)) ts := by
  induction ts generalizing rl with
  | nil => simp [runCalls, runKey]
  | cons t ts ih =>
    simp only [List.map_cons, runCalls, runKey, RateLimiter.isAllowed]
    by_cases h : limitFor a ≤
        ((mapGet rl.requests (u ++ ":" ++ a)).filter
          (fun time => t - time < 60000)).length
    · simp [h, ih]
    · simp [h, ih, mapGet_mapSet]

/-- Expected admission pattern when no stored timestamp ever ages out:
with `c` timestamps already recorded, each further call is admitted
exactly while the count is below the limit. -/
def expectedResults (limit c : Nat) : Nat → List Bool
  | 0 => []
  | n + 1 =>
    if limit ≤ c then false :: expectedResults limit c n
    else true :: expectedResults limit (c + 1) n

/-- When every pair of involved timestamps is less than 60,000 ms apart,
the purge step never removes anything and the single-key trajectory is
the pure counting pattern `expectedResults`. -/
theorem runKey_all_recent (limit : Nat) (ts : List Nat) :
    ∀ cur : List Nat,
      (∀ x ∈ cur ++ ts, ∀ y ∈ cur ++ ts, x - y < 60000) →
      runKey limit cur ts = expectedResults limit cur.length ts.length := by
  induction ts with
  | nil => intro cur _; simp [runKey, expectedResults]
  | cons t ts ih =>
    intro cur h
    have hkeep : cur.filter (fun time => t - time < 60000) = cur := by
      apply List.filter_eq_self.mpr
      intro x hx
      simp only [decide_eq_true_eq]
      exact h t (by simp) x (by simp [hx])
    unfold runKey expectedResults
    simp only [hkeep]
    by_cases hcl : limit ≤ cur.length
    · simp only [if_pos hcl]
      have hsub : ∀ x ∈ cur ++ ts, ∀ y ∈ cur ++ ts, x - y < 60000 := by
        intro x hx y hy
        refine h x ?_ y ?_ <;>
          · simp only [List.mem_append, List.mem_cons] at hx hy ⊢
            tauto
      rw [ih cur hsub]
      rfl
    · simp only [if_neg hcl]
      have hsub : ∀ x ∈ (cur ++ [t]) ++ ts, ∀ y ∈ (cur ++ [t]) ++ ts,
          x - y < 60000 := by
        intro x hx y hy
        refine h x ?_ y ?_ <;>
          · simp only [List.mem_append, List.mem_cons, List.mem_singleton]
              at hx hy ⊢
            tauto
      rw [ih (cur ++ [t]) hsub]
      simp [List.length_append]

theorem limitFor_pos (a : String) : 0 < limitFor a := by
  unfold limitFor
  split_ifs <;> norm_num

/-- C6.  Rate-limiter admission: starting from an empty window, 31
`"message"` calls for one user within one minute are answered
true 30 times and then false; a denied call records nothing (the state
is unchanged); once every recorded timestamp for the key is older than
60,000 ms the next call is admitted again; and the per-action limits
are 30 for `"message"`, 10 for `"command"`, 2 for `"export"` and 10 for
any other action. -/
theorem c6_rate_limiter_admission :
    (∀ (u : String) (ts : List Nat), ts.length = 31 →
      (∀ x ∈ ts, ∀ y ∈ ts, x - y < 60000) →
      (runCalls ⟨[]⟩ (ts.map (fun t => (t, u, "message")))).1 =
        List.replicate 30 true ++ [false]) ∧
    (∀ (rl : RateLimiter) (now : Nat) (u a : String),
      (rl.isAllowed now u a).1 = false → (rl.isAllowed now u a).2 = rl) ∧
    (∀ (rl : RateLimiter) (now : Nat) (u a : String),
      (∀ x ∈ mapGet rl.requests (u ++ ":" ++ a), 60000 < now - x) →
      (rl.isAllowed now u a).1 = true) ∧
    (limitFor "message" = 30 ∧ limitFor "command" = 10 ∧
      limitFor "export" = 2 ∧
      ∀ a, a ≠ "message" → a ≠ "command" → a ≠ "export" → limitFor a = 10) := by
  refine ⟨?_, ?_, ?_, ?_, ?_, ?_, ?_⟩
  · intro u ts hlen hspread
    rw [runCalls_single u "message" ts ⟨[]⟩]
    have : mapGet ([] : List (String × List Nat)) (u ++ ":" ++ "message")
        = [] := rfl
    rw [this, runKey_all_recent (limitFor "message") ts []
      (by simpa using hspread)]
    simp only [List.length_nil, hlen]
    show expectedResults 30 0 31 = List.replicate 30 true ++ [false]
    decide
  · intro rl now u a h
    by_cases hc : limitFor a ≤
        ((mapGet rl.requests (u ++ ":" ++ a)).filter
          (fun time => now - time < 60000)).length
    · simp [RateLimiter.isAllowed, hc]
    · simp [RateLimiter.isAllowed, hc] at h
  · intro rl now u a h
    unfold RateLimiter.isAllowed
    simp only []
    have hnil : (mapGet rl.requests (u ++ ":" ++ a)).filter
        (fun time => now - time < 60000) = [] := by
      rw [List.filter_eq_nil_iff]
      intro x hx
      simp only [decide_eq_true_eq, not_lt]
      exact le_of_lt (h x hx)
    rw [hnil]
    simp [Nat.not_le.mpr (limitFor_pos a)]
  · rfl
  · rfl
  · rfl
  · intro a h1 h2 h3
    simp [limitFor, h1, h2, h3]

/-- C6 witness: the admission theorem applied to 31 calls at times
`0,…,30`, to a concrete denied `"export"` call whose state is unchanged,
and to a call whose only stored timestamp is 70,000 ms old. -/
theorem c6_rate_limiter_admission_witness :
    (runCalls ⟨[]⟩ ((List.range 31).map
      (fun t => (t, "u", "message")))).1 =
        List.replicate 30 true ++ [false] ∧
    (RateLimiter.isAllowed ⟨[("u:export", [0, 1])]⟩ 2 "u" "export").2 =
      ⟨[("u:export", [0, 1])]⟩ ∧
    (RateLimiter.isAllowed ⟨[("u:message", [0])]⟩ 70000 "u" "message").1 =
      true :=
  ⟨c6_rate_limiter_admission.1 "u" (List.range 31) (by decide) (by decide),
    c6_rate_limiter_admission.2.1 ⟨[("u:export", [0, 1])]⟩ 2 "u" "export"
      (by decide),
    c6_rate_limiter_admission.2.2.1 ⟨[("u:message", [0])]⟩ 70000 "u"
      "message" (by decide)⟩

/-- C7 counterexample: the claimed invariant — after every `isAllowed`
call the stored list of *each* key holds only timestamps within the
trailing 60,000 ms of that call — fails, because purging is lazy and
per-key.  After an allowed call for key `"a:export"` at time 0 and an
allowed call for key `"b:export"` at time 70,000, the list stored for
`"a:export"` still holds the timestamp 0, which is 70,000 ms old. -/
theorem c7_stale_key_counterexample :
    (runCalls ⟨[]⟩ [(0, "a", "export"), (70000, "b", "export")]).1 =
      [true, true] ∧
    mapGet (runCalls ⟨[]⟩
      [(0, "a", "export"), (70000, "b", "export")]).2.requests "a:export" =
      [0] ∧
    ¬ (∀ x ∈ mapGet (runCalls ⟨[]⟩
        [(0, "a", "export"), (70000, "b", "export")]).2.requests "a:export",
        70000 - x < 60000) := by
  refine ⟨by decide, by decide, ?_⟩
  intro h
  have := h 0 (by decide)
  omega

/-- Every list retained by `cleanup` holds only timestamps younger than
60,000 ms at the cleanup instant, whatever key it sits under. -/
theorem cleanup_fresh (m : List (String × List Nat)) (now : Nat)
    (k : String) :
    ∀ x ∈ mapGet (RateLimiter.cleanup ⟨m⟩ now).requests k,
      now - x < 60000 := by
  induction m with
  | nil => intro x hx; simp [RateLimiter.cleanup, mapGet] at hx
  | cons p rest ih =>
    intro x hx
    unfold RateLimiter.cleanup at hx
    simp only [List.filterMap_cons] at hx
    by_cases hz : (p.2.filter (fun time => now - time < 60000)).length = 0
    · rw [if_pos hz] at hx
      exact ih x hx
    · rw [if_neg hz] at hx
      unfold mapGet at hx
      by_cases hk : p.1 = k
      · rw [if_pos hk] at hx
        have := List.of_mem_filter hx
        simpa using this
      · rw [if_neg hk] at hx
        exact ih x hx

/-- C7 (amended).  Per-key window invariant: after an *allowed*
`isAllowed` call, the list stored for the key that was checked holds
only timestamps within the trailing 60,000 ms of that call and at most
the limit of that action in entries; a *denied* call leaves the whole state
unchanged; and after `cleanup`, every retained list of every key holds
only timestamps within the trailing 60,000 ms of the cleanup.  Lists of
keys not touched by a call may retain older entries until their next
check or cleanup. -/
theorem c7_window_invariant_amended :
    (∀ (rl : RateLimiter) (now : Nat) (u a : String),
      (rl.isAllowed now u a).1 = true →
      (∀ x ∈ mapGet (rl.isAllowed now u a).2.requests (u ++ ":" ++ a),
        now - x < 60000) ∧
      (mapGet (rl.isAllowed now u a).2.requests (u ++ ":" ++ a)).length ≤
        limitFor a) ∧
    (∀ (rl : RateLimiter) (now : Nat) (u a : String),
      (rl.isAllowed now u a).1 = false → (rl.isAllowed now u a).2 = rl) ∧
    (∀ (rl : RateLimiter) (now : Nat) (k : String),
      ∀ x ∈ mapGet (rl.cleanup now).requests k, now - x < 60000) := by
  refine ⟨?_, ?_, ?_⟩
  · intro rl now u a h
    by_cases hc : limitFor a ≤
        ((mapGet rl.requests (u ++ ":" ++ a)).filter
          (fun time => now - time < 60000)).length
    · simp [RateLimiter.isAllowed, hc] at h
    · simp only [RateLimiter.isAllowed, if_neg hc] at h ⊢
      rw [mapGet_mapSet]
      constructor
      · intro x hx
        rcases List.mem_append.mp hx with hx' | hx'
        · have := List.of_mem_filter hx'
          simpa using this
        · simp only [List.mem_singleton] at hx'
          subst hx'
          omega
      · rw [List.length_append, List.length_singleton]
        omega
  · intro rl now u a h
    by_cases hc : limitFor a ≤
        ((mapGet rl.requests (u ++ ":" ++ a)).filter
          (fun time => now - time < 60000)).length
    · simp [RateLimiter.isAllowed, hc]
    · simp [RateLimiter.isAllowed, hc] at h
  · intro rl now k
    obtain ⟨m⟩ := rl
    exact cleanup_fresh m now k

/-- C7 amended-claim witness: the invariant applied to a concrete
allowed call, a concrete denied call, and a concrete cleanup. -/
theorem c7_window_invariant_amended_witness :
    ((RateLimiter.isAllowed ⟨[]⟩ 5 "a" "export").1 = true ∧
      (∀ x ∈ mapGet (RateLimiter.isAllowed ⟨[]⟩ 5 "a" "export").2.requests
        ("a" ++ ":" ++ "export"), 5 - x < 60000)) ∧
    (RateLimiter.isAllowed ⟨[("u:export", [0, 1])]⟩ 2 "u" "export").2 =
      ⟨[("u:export", [0, 1])]⟩ ∧
    (∀ x ∈ mapGet (RateLimiter.cleanup ⟨[("k", [0, 50000])]⟩ 70000).requests
      "k", 70000 - x < 60000) :=
  ⟨⟨by decide, (c7_window_invariant_amended.1 ⟨[]⟩ 5 "a" "export"
      (by decide)).1⟩,
    c7_window_invariant_amended.2.1 ⟨[("u:export", [0, 1])]⟩ 2 "u" "export"
      (by decide),
    c7_window_invariant_amended.2.2 ⟨[("k", [0, 50000])]⟩ 70000 "k"⟩

/-- Sixty `"message"` calls for one user: thirty at time 0 and thirty at
time 60,000. -/
def burstTrace : List (Nat × String × String) :=
  List.replicate 30 (0, "u", "message") ++
    List.replicate 30 (60000, "u", "message")

/-- C8.  Boundary burst: all sixty calls of `burstTrace` are admitted —
twice the nominal 30-per-minute limit — although every call timestamp
lies within the single 60-second span from 0 to 60,000 ms, because the
purge condition `now - time < 60000` drops a timestamp the instant it is
exactly 60,000 ms old. -/
theorem c8_boundary_burst :
    (runCalls ⟨[]⟩ burstTrace).1 = List.replicate 60 true ∧
    burstTrace.length = 2 * limitFor "message" ∧
    ∀ c ∈ burstTrace, c.1 ≤ 60000 := by decide

/-! ## Object store, record store and the backup engine -/

/-- JavaScript `name.startsWith(pre)`, the Google Cloud Storage
`getFiles({ prefix })` name filter. -/
def jsStartsWith (s pre : String) : Bool :=
  pre.data.isPrefixOf s.data

/-- One object in the Google Cloud Storage bucket, reduced to the
metadata the cleanup and listing code reads: the object name and its
`timeCreated` timestamp in milliseconds. -/
structure BFile where
  name : String
  timeCreated : Nat
deriving DecidableEq

/-- Embedding of `GCSUtils.listBackupFiles`, which lists the bucket
objects whose names carry the `backup_` name filter. -/
def listBackupFiles (bucket : List BFile) : List BFile :=
  bucket.filter (fun f => jsStartsWith f.name "backup_")

/-- Milliseconds per day; `cutoffDate.setDate(cutoffDate.getDate() -
retentionDays)` is embedded as `now - retentionDays * msPerDay`. -/
def msPerDay : Nat := 86400000

/-- Embedding of `GCSUtils.cleanupOldBackups` with its default
`retentionDays = 30`: among the objects
whose name starts with `backup_`, delete those created before the
cutoff;
return the surviving bucket and `deletedCount`. -/
def gcsCleanupOldBackups (bucket : List BFile) (now retentionDays : Nat) :
    List BFile × Nat :=
  let cutoff := now - retentionDays * msPerDay
  let oldFiles := (bucket.filter (fun f => jsStartsWith f.name "backup_")).filter
    (fun f => f.timeCreated < cutoff)
  (bucket.filter
      (fun f => !(jsStartsWith f.name "backup_" && f.timeCreated < cutoff)),
    oldFiles.length)

/-- One row of the DynamoDB backup-metadata table, reduced to the fields
the retention scan reads: the `backupId` primary key and the row
timestamp.  ISO-8601 timestamp strings compare lexicographically, hence
chronologically; they are embedded as milliseconds. -/
structure MetaRow where
  backupId : String
  timestamp : Nat
deriving DecidableEq

/-- Embedding of `DynamoDBUtils.cleanupOldBackups`: scan the backup
table for rows
with `timestamp < cutoff`, batch-delete the selected rows by their
`backupId` key, and return the surviving table together with
`deletedCount` (the number of selected rows).  No object-store call
occurs in this function. -/
def dynamoCleanupOldBackups (table : List MetaRow) (now retentionDays : Nat) :
    List MetaRow × Nat :=
  let cutoff := now - retentionDays * msPerDay
  let items := table.filter (fun r => r.timestamp < cutoff)
  (table.filter (fun r => !(items.any (fun i => i.backupId == r.backupId))),
    items.length)

/-- The metadata record as assembled by `BackupSystem.performBackup`. -/
structure BackupMetadata where
  backupId : String
  timestamp : String
  status : String
  recordCount : Nat
  size : Nat
  bucketName : String
  path : String
  url : String
deriving DecidableEq

/-- The outcomes the external services return during one
`performBackup` run: the DynamoDB scan, the GCS `file.save` and
`getSignedUrl`, the metadata `putItem`, the Discord webhook send (keyed
by success flag and error text), and the successive
`new Date().toISOString()` readings.  `α` is the record type. -/
structure BackupEnv (α : Type) where
  scanResult : Except String (List α)
  saveResult : String → Bytes → Except String Unit
  signResult : String → Except String String
  putResult : Except String Unit
  notifyResult : Bool → Option String → Except String Unit
  isoTime : Nat → String

/-- Side effects attempted and completed during a `performBackup` run:
scan attempts, attempted and successful `file.save` calls (the objects
that exist afterwards), attempted and successful backup-metadata
`putItem` calls (the rows that exist afterwards), and attempted backup
notifications. -/
structure BackupTrace where
  scanCalls : Nat
  saveCalls : List (String × Bytes)
  stored : List (String × Bytes)
  putCalls : List BackupMetadata
  metaRows : List BackupMetadata
  notifyCalls : List (Bool × Option String)
deriving DecidableEq

/-- Embedding of `GCSUtils.uploadFile`: compress-and-encrypt the
data, `file.save` the artifact, then `getSignedUrl`; any error is
re-thrown. -/
def uploadFile {α : Type} (env : BackupEnv α) (C : Codec) (A : AEAD)
    (key iv : Bytes) (tr : BackupTrace) (fileName : String) (data : Bytes) :
    Except String String × BackupTrace :=
  let artifact := compressAndEncrypt C A key iv data
  let tr1 := { tr with saveCalls := tr.saveCalls ++ [(fileName, artifact)] }
  match env.saveResult fileName artifact with
  | Except.error e => (Except.error e, tr1)
  | Except.ok _ =>
    let tr2 := { tr1 with stored := tr1.stored ++ [(fileName, artifact)] }
    match env.signResult fileName with
    | Except.error e => (Except.error e, tr2)
    | Except.ok url => (Except.ok url, tr2)

/-- The `backup_${new Date().toISOString()}.gz` identifier of the run. -/
def backupIdOf {α : Type} (env : BackupEnv α) : String :=
  "backup_" ++ env.isoTime 0 ++ ".gz"

/-- The `backups/${backupId}` object path of the run. -/
def backupPathOf {α : Type} (env : BackupEnv α) : String :=
  "backups/" ++ backupIdOf env

/-- The templated URL `performBackup` records (the code resolves it from
a `setTimeout` promise rather than from `getSignedUrl`). -/
def backupUrlOf {α : Type} (env : BackupEnv α) (bucketName : String) :
    String :=
  "https://" ++ bucketName ++ ".storage.googleapis.com/" ++ backupPathOf env

/-- The artifact bytes `uploadFile` stores for a run whose snapshot
serializes to `serialize rs`: note the serialization is gzip-compressed
once by `BackupSystem.compressData` and then again inside
`compressAndEncrypt`. -/
def backupArtifact {α : Type} (C : Codec) (A : AEAD) (key iv : Bytes)
    (serialize : List α → Bytes) (rs : List α) : Bytes :=
  compressAndEncrypt C A key iv (C.compress (serialize rs))

/-- The metadata row a fully successful run persists. -/
def successMetadata {α : Type} (env : BackupEnv α) (C : Codec)
    (serialize : List α → Bytes) (bucketName : String) (rs : List α) :
    BackupMetadata :=
  ⟨backupIdOf env, env.isoTime 1, "success", rs.length,
    (C.compress (serialize rs)).length, bucketName, backupPathOf env,
    backupUrlOf env bucketName⟩

/-- Embedding of `BackupSystem.performBackup`: scan all records,
serialize, gzip,
upload under `backups/backup_<iso>.gz` (which encrypts after a second
gzip), record success metadata (whose `size` is the length of the singly
compressed data), notify success and return the metadata; on any thrown
error, notify failure with the error message and re-throw.  A failure of
the failure notification itself propagates in place of the original
error, as in the JavaScript `catch` block. -/
def performBackup {α : Type} (env : BackupEnv α) (C : Codec) (A : AEAD)
    (key iv : Bytes) (serialize : List α → Bytes) (bucketName : String) :
    Except String BackupMetadata × BackupTrace :=
  let tr0 : BackupTrace := ⟨1, [], [], [], [], []⟩
  let attempt : Except String BackupMetadata × BackupTrace :=
    match env.scanResult with
    | Except.error e => (Except.error e, tr0)
    | Except.ok data =>
      let compressedData := C.compress (serialize data)
      match uploadFile env C A key iv tr0 (backupPathOf env) compressedData with
      | (Except.error e, tr1) => (Except.error e, tr1)
      | (Except.ok _, tr1) =>
        let metadata : BackupMetadata :=
          ⟨backupIdOf env, env.isoTime 1, "success", data.length,
            compressedData.length, bucketName, backupPathOf env,
            backupUrlOf env bucketName⟩
        let tr2 := { tr1 with putCalls := tr1.putCalls ++ [metadata] }
        match env.putResult with
        | Except.error e => (Except.error e, tr2)
        | Except.ok _ =>
          let tr3 := { tr2 with metaRows := tr2.metaRows ++ [metadata] }
          let tr4 := { tr3 with notifyCalls := tr3.notifyCalls ++ [(true, none)] }
          match env.notifyResult true none with
          | Except.error e => (Except.error e, tr4)
          | Except.ok _ => (Except.ok metadata, tr4)
  match attempt with
  | (Except.ok m, tr) => (Except.ok m, tr)
  | (Except.error e, tr) =>
    let tr' := { tr with notifyCalls := tr.notifyCalls ++ [(false, some e)] }
    match env.notifyResult false (some e) with
    | Except.error e2 => (Except.error e2, tr')
    | Except.ok _ => (Except.error e, tr')

/-- Embedding of `GCSUtils.downloadFile`: fetch the bytes of the object
and run
`decryptAndDecompress` on them. -/
def downloadFile (stored : List (String × Bytes)) (C : Codec) (A : AEAD)
    (key : Bytes) (fileName : String) : Except String Bytes :=
  match List.lookup fileName stored with
  | none => Except.error "No such object"
  | some d => decryptAndDecompress C A key d

/-- Modelled from the spec: the repository has no orchestrating
`restore(backupId)` entry point (spec §4.1 defines one and §9 records
its absence as an open question).  Following the words of the spec —
download
the artifact bytes, split off IV and tag, decrypt verifying the tag,
decompress, deserialize into the record collection — where downloading
plus splitting/decrypting/decompressing is exactly
`GCSUtils.downloadFile`. -/
def restore {α : Type} (stored : List (String × Bytes)) (C : Codec)
    (A : AEAD) (key : Bytes) (deserialize : Bytes → Option (List α))
    (fileName : String) : Except String (List α) :=
  match downloadFile stored C A key fileName with
  | Except.error e => Except.error e
  | Except.ok plain =>
    match deserialize plain with
    | none => Except.error "Unexpected token in JSON"
    | some rs => Except.ok rs

/-- The restore orchestration the stored artifact actually requires:
`GCSUtils.downloadFile` followed by one further gunzip
(`BackupSystem.decompressData`) before deserializing, compensating for
the double compression of `performBackup` + `uploadFile`. -/
def restoreWithSecondGunzip {α : Type} (stored : List (String × Bytes))
    (C : Codec) (A : AEAD) (key : Bytes)
    (deserialize : Bytes → Option (List α)) (fileName : String) :
    Except String (List α) :=
  match downloadFile stored C A key fileName with
  | Except.error e => Except.error e
  | Except.ok data =>
    match C.decompress data with
    | none => Except.error gunzipErrorMsg
    | some plain =>
      match deserialize plain with
      | none => Except.error "Unexpected token in JSON"
      | some rs => Except.ok rs

/-! ## C9 / C10: retention cleanup and the prefix mismatch -/

/-- The string `backup_` never starts a name that continues
`"backups/"`. -/
theorem backup_prefix_core (t : List Char) :
    List.isPrefixOf "backup_".data ("backups/".data ++ t) = false := by
  simp [List.isPrefixOf]

/-- A name starting with `"backups/"` never starts with `"backup_"`. -/
theorem backups_not_backup (p : String)
    (h : jsStartsWith p "backups/" = true) :
    jsStartsWith p "backup_" = false := by
  unfold jsStartsWith at h ⊢
  obtain ⟨t, ht⟩ := List.isPrefixOf_iff_prefix.mp h
  rw [← ht]
  exact backup_prefix_core t

/-- Every path `performBackup` ever saves an object under starts with
`"backups/"`. -/
theorem performBackup_stored_paths {α : Type} (env : BackupEnv α)
    (C : Codec) (A : AEAD) (key iv : Bytes) (serialize : List α → Bytes)
    (bucketName : String) :
    ∀ pb ∈ (performBackup env C A key iv serialize bucketName).2.stored,
      jsStartsWith pb.1 "backups/" = true := by
  have hpre : jsStartsWith (backupPathOf env) "backups/" = true := by
    unfold jsStartsWith backupPathOf
    rw [String.data_append]
    have happ := List.prefix_append "backups/".data (backupIdOf env).data
    exact List.isPrefixOf_iff_prefix.mpr happ
  intro pb hpb
  rcases h1 : env.scanResult with e | data
  · rcases h2 : env.notifyResult false (some e) with e2 | u <;>
      simp [performBackup, h1, h2] at hpb
  · rcases h2 : env.saveResult (backupPathOf env)
        (compressAndEncrypt C A key iv (C.compress (serialize data)))
        with e | u
    · rcases h3 : env.notifyResult false (some e) with e2 | u <;>
        simp [performBackup, uploadFile, h1, h2, h3] at hpb
    · rcases h3 : env.signResult (backupPathOf env) with e | url
      · rcases h4 : env.notifyResult false (some e) with e2 | u2 <;>
        · simp [performBackup, uploadFile, h1, h2, h3, h4] at hpb
          simp [hpb, hpre]
      · rcases h4 : env.putResult with e | u2
        · rcases h5 : env.notifyResult false (some e) with e2 | u3 <;>
          · simp [performBackup, uploadFile, h1, h2, h3, h4, h5] at hpb
            simp [hpb, hpre]
        · rcases h5 : env.notifyResult true none with e | u3
          · rcases h6 : env.notifyResult false (some e) with e2 | u4 <;>
            · simp [performBackup, uploadFile, h1, h2, h3, h4, h5, h6] at hpb
              simp [hpb, hpre]
          · simp [performBackup, uploadFile, h1, h2, h3, h4, h5] at hpb
            simp [hpb, hpre]

/-- C10.  Artifact/cleanup prefix mismatch: every object `performBackup`
stores sits under a name starting with `"backups/"`; such a name never
carries the `"backup_"` prefix that `listBackupFiles` and
`GCSUtils.cleanupOldBackups` filter on; hence the stored artifact is
never listed by `listBackupFiles` and never deleted by
`GCSUtils.cleanupOldBackups`. -/
theorem c10_prefix_mismatch {α : Type} (env : BackupEnv α) (C : Codec)
    (A : AEAD) (key iv : Bytes) (serialize : List α → Bytes)
    (bucketName : String) (bucket : List BFile) (f : BFile)
    (now retentionDays : Nat)
    (hf : ∃ pb ∈ (performBackup env C A key iv serialize bucketName).2.stored,
      f.name = pb.1) :
    jsStartsWith f.name "backup_" = false ∧
    f ∉ listBackupFiles bucket ∧
    (f ∈ bucket → f ∈ (gcsCleanupOldBackups bucket now retentionDays).1) := by
  obtain ⟨pb, hpb, hname⟩ := hf
  have hpre : jsStartsWith f.name "backup_" = false := by
    rw [hname]
    exact backups_not_backup pb.1
      (performBackup_stored_paths env C A key iv serialize bucketName pb hpb)
  refine ⟨hpre, ?_, ?_⟩
  · intro hmem
    have := List.of_mem_filter hmem
    rw [hpre] at this
    cases this
  · intro hmem
    refine List.mem_filter.mpr ⟨hmem, ?_⟩
    simp [hpre]

/-- C10 witness: for a concrete environment and a bucket containing the
concrete artifact object, the artifact is not listed and survives the
cleanup. -/
theorem c10_prefix_mismatch_witness :
    jsStartsWith "backups/backup_T.gz" "backup_" = false ∧
    (⟨"backups/backup_T.gz", 0⟩ : BFile) ∉
      listBackupFiles [⟨"backups/backup_T.gz", 0⟩] ∧
    ((⟨"backups/backup_T.gz", 0⟩ : BFile) ∈
        ([⟨"backups/backup_T.gz", 0⟩] : List BFile) →
      (⟨"backups/backup_T.gz", 0⟩ : BFile) ∈
        (gcsCleanupOldBackups [⟨"backups/backup_T.gz", 0⟩]
          (40 * msPerDay) 30).1) :=
  c10_prefix_mismatch
    (⟨Except.ok [(1 : Nat), 2, 3], fun _ _ => Except.ok (),
      fun _ => Except.ok "signed", Except.ok (),
      fun _ _ => Except.ok (), fun _ => "T"⟩ : BackupEnv Nat)
    toyCodec toyAEAD [] (List.replicate 16 0) (fun rs => rs) "bkt"
    [⟨"backups/backup_T.gz", 0⟩] ⟨"backups/backup_T.gz", 0⟩
    (40 * msPerDay) 30 (by decide)

/-- The three-row retention scenario of the spec: backups made today,
29 days ago and 31 days ago, with "now" at day 40 of the epoch. -/
def c9rows : List MetaRow :=
  [⟨"b0", 40 * msPerDay⟩, ⟨"b29", 11 * msPerDay⟩, ⟨"b31", 9 * msPerDay⟩]

/-- The artifacts `performBackup` would have stored for those three
runs, under their `backups/…` object names. -/
def c9bucket : List BFile :=
  [⟨"backups/backup_b0.gz", 40 * msPerDay⟩,
    ⟨"backups/backup_b29.gz", 11 * msPerDay⟩,
    ⟨"backups/backup_b31.gz", 9 * msPerDay⟩]

/-- C9 counterexample: with metadata rows at day 0, day 29 and day 31
and `retentionDays = 30`, `DynamoDBUtils.cleanupOldBackups` does delete
exactly the day-31 row and reports `deletedCount = 1`, but no provided
cleanup deletes the corresponding artifact: the DynamoDB function makes
no object-store call at all, and `GCSUtils.cleanupOldBackups` (prefix
`backup_`) deletes nothing from a bucket holding the `backups/…`
artifacts — the day-31 artifact survives, contradicting the claim that
the corresponding artifact in the object store is deleted. -/
theorem c9_artifact_survives_counterexample :
    (dynamoCleanupOldBackups c9rows (40 * msPerDay) 30).2 = 1 ∧
    (dynamoCleanupOldBackups c9rows (40 * msPerDay) 30).1 =
      [⟨"b0", 40 * msPerDay⟩, ⟨"b29", 11 * msPerDay⟩] ∧
    gcsCleanupOldBackups c9bucket (40 * msPerDay) 30 = (c9bucket, 0) ∧
    (⟨"backups/backup_b31.gz", 9 * msPerDay⟩ : BFile) ∈
      (gcsCleanupOldBackups c9bucket (40 * msPerDay) 30).1 := by
  refine ⟨by decide, by decide, by decide, by decide⟩

/-- C9 (amended).  Retention cleanup: for every table, clock and
`retentionDays`, `DynamoDBUtils.cleanupOldBackups` selects exactly the
metadata rows with `timestamp < now − retentionDays`, deletes exactly
those rows (given distinct `backupId` keys) and returns `deletedCount`
equal to the number of selected rows — with rows at day 0, day 29 and
day 31 and `retentionDays = 30`, exactly the day-31 row is deleted and
`deletedCount = 1`; it deletes no artifacts, and the separate
`GCSUtils.cleanupOldBackups` never deletes any object stored under a
`backups/…` name. -/
theorem c9_retention_cleanup_amended :
    (∀ (table : List MetaRow) (now retentionDays : Nat),
      (dynamoCleanupOldBackups table now retentionDays).2 =
        (table.filter
          (fun r => r.timestamp < now - retentionDays * msPerDay)).length) ∧
    (∀ (table : List MetaRow) (now retentionDays : Nat),
      table.Pairwise (fun a b => a.backupId ≠ b.backupId) →
      (dynamoCleanupOldBackups table now retentionDays).1 =
        table.filter
          (fun r => !(r.timestamp < now - retentionDays * msPerDay))) ∧
    (∀ (bucket : List BFile) (now retentionDays : Nat) (f : BFile),
      jsStartsWith f.name "backup_" = false → f ∈ bucket →
      f ∈ (gcsCleanupOldBackups bucket now retentionDays).1) ∧
    ((dynamoCleanupOldBackups c9rows (40 * msPerDay) 30).2 = 1 ∧
      (dynamoCleanupOldBackups c9rows (40 * msPerDay) 30).1 =
        [⟨"b0", 40 * msPerDay⟩, ⟨"b29", 11 * msPerDay⟩]) := by
  refine ⟨fun table now retentionDays => rfl, ?_, ?_, by decide, by decide⟩
  · intro table now retentionDays hpw
    unfold dynamoCleanupOldBackups
    simp only []
    apply List.filter_congr
    intro r hr
    by_cases hcut : r.timestamp < now - retentionDays * msPerDay
    · have hrmem : r ∈ table.filter
          (fun r => r.timestamp < now - retentionDays * msPerDay) :=
        List.mem_filter.mpr ⟨hr, by simpa using hcut⟩
      simp only [hcut]
      rw [List.any_eq_true.mpr ⟨r, hrmem, by simp⟩]
      simp
    · simp only [hcut]
      have hnone : (table.filter
          (fun r => r.timestamp < now - retentionDays * msPerDay)).any
            (fun i => i.backupId == r.backupId) = false := by
        rw [List.any_eq_false]
        intro i hi
        obtain ⟨hitab, hicut⟩ := List.mem_filter.mp hi
        simp only [beq_iff_eq]
        intro hid
        have : i = r := by
          by_contra hne
          exact List.Pairwise.forall
            (fun a b hab => (hab ∘ Eq.symm : b.backupId = a.backupId → False))
            hpw hitab hr hne hid
        subst this
        simp only [decide_eq_true_eq] at hicut
        exact hcut hicut
      rw [hnone]
      simp
  · intro bucket now retentionDays f hpre hmem
    refine List.mem_filter.mpr ⟨hmem, ?_⟩
    simp [hpre]

/-- C9 amended-claim witness: the amended theorem applied to the
three-row scenario and to the day-31 artifact in the concrete bucket. -/
theorem c9_retention_cleanup_amended_witness :
    (dynamoCleanupOldBackups c9rows (40 * msPerDay) 30).1 =
      c9rows.filter
        (fun r => !(r.timestamp < 40 * msPerDay - 30 * msPerDay)) ∧
    (⟨"backups/backup_b31.gz", 9 * msPerDay⟩ : BFile) ∈
      (gcsCleanupOldBackups c9bucket (40 * msPerDay) 30).1 :=
  ⟨c9_retention_cleanup_amended.2.1 c9rows (40 * msPerDay) 30 (by decide),
    c9_retention_cleanup_amended.2.2.1 c9bucket (40 * msPerDay) 30
      ⟨"backups/backup_b31.gz", 9 * msPerDay⟩ (by decide) (by decide)⟩

/-! ## C3 / C4 / C5: the performBackup contract -/

/-- When every service call succeeds, `performBackup` returns the
success metadata and the trace holds exactly one stored object, one
metadata row and one success notification. -/
theorem performBackup_success {α : Type} (env : BackupEnv α) (C : Codec)
    (A : AEAD) (key iv : Bytes) (serialize : List α → Bytes)
    (bucketName : String) (rs : List α) (sig : String)
    (h1 : env.scanResult = Except.ok rs)
    (hsave : env.saveResult (backupPathOf env)
      (backupArtifact C A key iv serialize rs) = Except.ok ())
    (hsig : env.signResult (backupPathOf env) = Except.ok sig)
    (hput : env.putResult = Except.ok ())
    (hn1 : env.notifyResult true none = Except.ok ()) :
    performBackup env C A key iv serialize bucketName =
      (Except.ok (successMetadata env C serialize bucketName rs),
        ⟨1, [(backupPathOf env, backupArtifact C A key iv serialize rs)],
          [(backupPathOf env, backupArtifact C A key iv serialize rs)],
          [successMetadata env C serialize bucketName rs],
          [successMetadata env C serialize bucketName rs],
          [(true, none)]⟩) := by
  simp only [backupArtifact] at hsave
  simp [performBackup, uploadFile, backupArtifact, successMetadata,
    h1, hsave, hsig, hput, hn1]

/-- Environment in which the record scan fails and the failure
notification itself throws. -/
def c3env : BackupEnv Nat :=
  ⟨Except.error "scan failed", fun _ _ => Except.ok (),
    fun _ => Except.ok "signed", Except.ok (),
    fun success _ =>
      if success then Except.ok () else Except.error "notify failed",
    fun _ => "T"⟩

/-- C3 counterexample: when the failure notification in the `catch`
block itself throws, `performBackup` re-raises the notification error
instead of the original one — the caller receives `"notify failed"`
while the only attempted failure notification carried `"scan failed"`
and was never delivered; so it is not true for every run that the
re-raised error was first emitted in a failure notification carrying
that error message. -/
theorem c3_notify_error_counterexample :
    (performBackup c3env toyCodec toyAEAD [] (List.replicate 16 0)
      (fun rs => rs) "bkt").1 = Except.error "notify failed" ∧
    (performBackup c3env toyCodec toyAEAD [] (List.replicate 16 0)
      (fun rs => rs) "bkt").2.metaRows = [] ∧
    (performBackup c3env toyCodec toyAEAD [] (List.replicate 16 0)
      (fun rs => rs) "bkt").2.notifyCalls = [(false, some "scan failed")] ∧
    ¬ (∀ e, (performBackup c3env toyCodec toyAEAD [] (List.replicate 16 0)
        (fun rs => rs) "bkt").1 = Except.error e →
      (false, some e) ∈ (performBackup c3env toyCodec toyAEAD []
        (List.replicate 16 0) (fun rs => rs) "bkt").2.notifyCalls) := by
  refine ⟨by rfl, by rfl, by rfl, ?_⟩
  intro h
  exact absurd (h "notify failed" (by rfl)) (by decide)

/-- C3 (amended).  `performBackup` error contract, for every run in
which the failure-notification send itself does not throw: either the
run returns metadata with `status = "success"` that is persisted while
the artifact exists at the recorded path, or the error is re-raised to
the caller after a failure notification carrying that error message was
emitted; in an error run every metadata row that exists is a complete
`status = "success"` row (none is partial; one exists only when the
failure occurred at the success-notification step), and no operation is
retried — at most one scan, one save and one put are attempted.  (If the
failure notification throws, its error propagates in place of the
original, as the counterexample shows.) -/
theorem c3_backup_error_contract_amended {α : Type} (env : BackupEnv α)
    (C : Codec) (A : AEAD) (key iv : Bytes) (serialize : List α → Bytes)
    (bucketName : String)
    (hnf : ∀ msg, env.notifyResult false msg = Except.ok ()) :
    (∀ m, (performBackup env C A key iv serialize bucketName).1 =
        Except.ok m →
      m.status = "success" ∧
      m ∈ (performBackup env C A key iv serialize bucketName).2.metaRows ∧
      ∃ bytes, (m.path, bytes) ∈
        (performBackup env C A key iv serialize bucketName).2.stored) ∧
    (∀ e, (performBackup env C A key iv serialize bucketName).1 =
        Except.error e →
      (false, some e) ∈
        (performBackup env C A key iv serialize bucketName).2.notifyCalls ∧
      ∀ m ∈ (performBackup env C A key iv serialize bucketName).2.metaRows,
        m.status = "success") ∧
    (performBackup env C A key iv serialize bucketName).2.scanCalls = 1 ∧
    (performBackup env C A key iv serialize bucketName).2.saveCalls.length
      ≤ 1 ∧
    (performBackup env C A key iv serialize bucketName).2.putCalls.length
      ≤ 1 := by
  rcases h1 : env.scanResult with e | data
  · simp [performBackup, uploadFile, h1, hnf]
  · rcases h2 : env.saveResult (backupPathOf env)
        (compressAndEncrypt C A key iv (C.compress (serialize data)))
        with e | u
    · simp [performBackup, uploadFile, h1, h2, hnf]
    · rcases h3 : env.signResult (backupPathOf env) with e | url
      · simp [performBackup, uploadFile, h1, h2, h3, hnf]
      · rcases h4 : env.putResult with e | u2
        · simp [performBackup, uploadFile, h1, h2, h3, h4, hnf]
        · rcases h5 : env.notifyResult true none with e | u3
          · simp [performBackup, uploadFile, h1, h2, h3, h4, h5, hnf]
          · simp [performBackup, uploadFile, h1, h2, h3, h4, h5]

/-- Environment with three records in the store and every service call
succeeding. -/
def c4env : BackupEnv Nat :=
  ⟨Except.ok [1, 2, 3], fun _ _ => Except.ok (),
    fun _ => Except.ok "signed", Except.ok (),
    fun _ _ => Except.ok (), fun _ => "T"⟩

/-- C3 amended-claim witness: the error contract applied to the all-ok
environment, whose failure notifications trivially do not throw. -/
theorem c3_backup_error_contract_amended_witness :
    (performBackup c4env toyCodec toyAEAD [] (List.replicate 16 0)
      (fun rs => rs) "bkt").2.scanCalls = 1 ∧
    (performBackup c4env toyCodec toyAEAD [] (List.replicate 16 0)
      (fun rs => rs) "bkt").2.saveCalls.length ≤ 1 ∧
    (performBackup c4env toyCodec toyAEAD [] (List.replicate 16 0)
      (fun rs => rs) "bkt").2.putCalls.length ≤ 1 :=
  (c3_backup_error_contract_amended c4env toyCodec toyAEAD []
    (List.replicate 16 0) (fun rs => rs) "bkt" (fun _ => rfl)).2.2

/-- C4 counterexample: with three records, `performBackup` under the toy
codec and cipher returns `status = "success"` and `recordCount = 3` as
claimed, but `size` is 5 — the length of the singly compressed
serialization — while the artifact stored at `path` is 39 bytes long, so
`size` is not the byte length of the stored artifact; and the
spec-modelled `restore` (download, decrypt, gunzip once, deserialize)
returns the still-compressed bytes `[31, 139, 1, 2, 3]`, not the three
original records. -/
theorem c4_size_restore_counterexample :
    (performBackup c4env toyCodec toyAEAD [] (List.replicate 16 0)
      (fun rs => rs) "bkt").1 =
      Except.ok ⟨"backup_T.gz", "T", "success", 3, 5, "bkt",
        "backups/backup_T.gz",
        "https://bkt.storage.googleapis.com/backups/backup_T.gz"⟩ ∧
    (performBackup c4env toyCodec toyAEAD [] (List.replicate 16 0)
      (fun rs => rs) "bkt").2.stored =
      [("backups/backup_T.gz",
        backupArtifact toyCodec toyAEAD [] (List.replicate 16 0)
          (fun rs => rs) [1, 2, 3])] ∧
    (backupArtifact toyCodec toyAEAD [] (List.replicate 16 0)
      (fun rs => rs) [1, 2, 3]).length = 39 ∧
    (5 : Nat) ≠ 39 ∧
    restore (performBackup c4env toyCodec toyAEAD [] (List.replicate 16 0)
        (fun rs => rs) "bkt").2.stored toyCodec toyAEAD []
      (fun bs => some bs) "backups/backup_T.gz" =
      Except.ok [31, 139, 1, 2, 3] ∧
    ([31, 139, 1, 2, 3] : List Nat) ≠ [1, 2, 3] :=
  ⟨by rfl, by rfl, by decide, by decide, by rfl, by decide⟩

/-- Downloading the artifact of a successful run returns the singly
compressed serialization, given the cipher and codec contracts. -/
theorem downloadFile_of_success {α : Type} (env : BackupEnv α) (C : Codec)
    (A : AEAD) (key iv : Bytes) (serialize : List α → Bytes) (rs : List α)
    (hiv : iv.length = 16)
    (htag : (A.tagOf key iv
      (C.compress (C.compress (serialize rs)))).length = 16)
    (hdec : A.dec key iv
        (A.enc key iv (C.compress (C.compress (serialize rs))))
        (A.tagOf key iv (C.compress (C.compress (serialize rs)))) =
      some (C.compress (C.compress (serialize rs))))
    (hrt : C.decompress (C.compress (C.compress (serialize rs))) =
      some (C.compress (serialize rs))) :
    downloadFile
      [(backupPathOf env, backupArtifact C A key iv serialize rs)]
      C A key (backupPathOf env) = Except.ok (C.compress (serialize rs)) := by
  unfold downloadFile
  have hlk : List.lookup (backupPathOf env)
      [(backupPathOf env, backupArtifact C A key iv serialize rs)] =
      some (backupArtifact C A key iv serialize rs) := by
    simp [List.lookup]
  rw [hlk]
  show decryptAndDecompress C A key
    (compressAndEncrypt C A key iv (C.compress (serialize rs))) =
      Except.ok (C.compress (serialize rs))
  exact decode_encode_aux C A key iv (C.compress (serialize rs))
    hiv htag hdec hrt

/-- C4 (amended).  End-to-end backup postcondition: with `n` records in
the store and every service call succeeding, `performBackup` returns
persisted metadata with `status = "success"`, `recordCount = n` and
`size` equal to the byte length of the singly gzip-compressed serialized
snapshot (positive, since gzip output is never empty) — not of the
stored artifact — and restoring from the recorded path requires one
further gunzip after `downloadFile`, after which exactly the `n`
original records come back. -/
theorem c4_backup_postcondition_amended {α : Type} (env : BackupEnv α)
    (C : Codec) (A : AEAD) (key iv : Bytes) (serialize : List α → Bytes)
    (deserialize : Bytes → Option (List α)) (bucketName : String)
    (rs : List α) (sig : String)
    (h1 : env.scanResult = Except.ok rs)
    (hsave : env.saveResult (backupPathOf env)
      (backupArtifact C A key iv serialize rs) = Except.ok ())
    (hsig : env.signResult (backupPathOf env) = Except.ok sig)
    (hput : env.putResult = Except.ok ())
    (hn1 : env.notifyResult true none = Except.ok ())
    (hiv : iv.length = 16)
    (htag : (A.tagOf key iv
      (C.compress (C.compress (serialize rs)))).length = 16)
    (hdec : A.dec key iv
        (A.enc key iv (C.compress (C.compress (serialize rs))))
        (A.tagOf key iv (C.compress (C.compress (serialize rs)))) =
      some (C.compress (C.compress (serialize rs))))
    (hrt : C.decompress (C.compress (C.compress (serialize rs))) =
      some (C.compress (serialize rs)))
    (hrt2 : C.decompress (C.compress (serialize rs)) = some (serialize rs))
    (hser : deserialize (serialize rs) = some rs)
    (hpos : 0 < (C.compress (serialize rs)).length) :
    (performBackup env C A key iv serialize bucketName).1 =
      Except.ok (successMetadata env C serialize bucketName rs) ∧
    (successMetadata env C serialize bucketName rs).status = "success" ∧
    (successMetadata env C serialize bucketName rs).recordCount =
      rs.length ∧
    (successMetadata env C serialize bucketName rs).size =
      (C.compress (serialize rs)).length ∧
    0 < (successMetadata env C serialize bucketName rs).size ∧
    (successMetadata env C serialize bucketName rs) ∈
      (performBackup env C A key iv serialize bucketName).2.metaRows ∧
    restoreWithSecondGunzip
      (performBackup env C A key iv serialize bucketName).2.stored
      C A key deserialize (backupPathOf env) = Except.ok rs := by
  have hall := performBackup_success env C A key iv serialize bucketName
    rs sig h1 hsave hsig hput hn1
  rw [hall]
  refine ⟨rfl, rfl, rfl, rfl, hpos, by simp, ?_⟩
  show restoreWithSecondGunzip
    [(backupPathOf env, backupArtifact C A key iv serialize rs)]
    C A key deserialize (backupPathOf env) = Except.ok rs
  have hdl := downloadFile_of_success env C A key iv serialize rs
    hiv htag hdec hrt
  simp [restoreWithSecondGunzip, hdl, hrt2, hser]

/-- C4 amended-claim witness: the amended postcondition applied to the
all-ok three-record environment with the toy codec and cipher; the
restore with a second gunzip returns the three original records. -/
theorem c4_backup_postcondition_amended_witness :
    restoreWithSecondGunzip
      (performBackup c4env toyCodec toyAEAD [] (List.replicate 16 0)
        (fun rs => rs) "bkt").2.stored
      toyCodec toyAEAD [] (fun bs => some bs) (backupPathOf c4env) =
      Except.ok [1, 2, 3] :=
  (c4_backup_postcondition_amended c4env toyCodec toyAEAD []
    (List.replicate 16 0) (fun rs => rs) (fun bs => some bs) "bkt"
    [1, 2, 3] "signed" rfl rfl rfl rfl rfl (by decide) (by decide)
    (by decide) (by decide) (by decide) rfl (by decide)).2.2.2.2.2.2

/-- C5.  Double compression: for every successful run, the object
stored at the recorded path is
`IV ++ AES-256-GCM(gzip(gzip(json))) ++ tag` — `performBackup` gzips the
serialized snapshot once and `uploadFile` gzips that result again before
encrypting — `downloadFile` of that path returns the still-singly-
compressed serialization, from which one further gunzip recovers the
JSON; and `metadata.size` is the length of the singly compressed data,
which differs from the length of the stored artifact (the latter being
32 bytes of IV and tag plus the doubly compressed length). -/
theorem c5_double_compression {α : Type} (env : BackupEnv α) (C : Codec)
    (A : AEAD) (key iv : Bytes) (serialize : List α → Bytes)
    (bucketName : String) (rs : List α) (sig : String)
    (h1 : env.scanResult = Except.ok rs)
    (hsave : env.saveResult (backupPathOf env)
      (backupArtifact C A key iv serialize rs) = Except.ok ())
    (hsig : env.signResult (backupPathOf env) = Except.ok sig)
    (hput : env.putResult = Except.ok ())
    (hn1 : env.notifyResult true none = Except.ok ())
    (hiv : iv.length = 16)
    (htag : (A.tagOf key iv
      (C.compress (C.compress (serialize rs)))).length = 16)
    (hdec : A.dec key iv
        (A.enc key iv (C.compress (C.compress (serialize rs))))
        (A.tagOf key iv (C.compress (C.compress (serialize rs)))) =
      some (C.compress (C.compress (serialize rs))))
    (hrt : C.decompress (C.compress (C.compress (serialize rs))) =
      some (C.compress (serialize rs)))
    (hrt2 : C.decompress (C.compress (serialize rs)) = some (serialize rs))
    (hctlen : (A.enc key iv
        (C.compress (C.compress (serialize rs)))).length =
      (C.compress (C.compress (serialize rs))).length) :
    (performBackup env C A key iv serialize bucketName).2.stored =
      [(backupPathOf env,
        iv ++ A.enc key iv (C.compress (C.compress (serialize rs))) ++
          A.tagOf key iv (C.compress (C.compress (serialize rs))))] ∧
    downloadFile
      (performBackup env C A key iv serialize bucketName).2.stored
      C A key (backupPathOf env) = Except.ok (C.compress (serialize rs)) ∧
    (∃ d, downloadFile
        (performBackup env C A key iv serialize bucketName).2.stored
        C A key (backupPathOf env) = Except.ok d ∧
      C.decompress d = some (serialize rs)) ∧
    (performBackup env C A key iv serialize bucketName).1 =
      Except.ok (successMetadata env C serialize bucketName rs) ∧
    (successMetadata env C serialize bucketName rs).size =
      (C.compress (serialize rs)).length ∧
    (backupArtifact C A key iv serialize rs).length =
      32 + (C.compress (C.compress (serialize rs))).length ∧
    ((C.compress (C.compress (serialize rs))).length + 32 ≠
        (C.compress (serialize rs)).length →
      (successMetadata env C serialize bucketName rs).size ≠
        (backupArtifact C A key iv serialize rs).length) := by
  have hall := performBackup_success env C A key iv serialize bucketName
    rs sig h1 hsave hsig hput hn1
  rw [hall]
  have hdl := downloadFile_of_success env C A key iv serialize rs
    hiv htag hdec hrt
  have hlen : (backupArtifact C A key iv serialize rs).length =
      32 + (C.compress (C.compress (serialize rs))).length := by
    simp [backupArtifact, compressAndEncrypt, List.length_append,
      hiv, htag, hctlen]
    omega
  refine ⟨rfl, hdl, ⟨C.compress (serialize rs), hdl, hrt2⟩, rfl, rfl, hlen,
    ?_⟩
  intro hne
  show (C.compress (serialize rs)).length ≠
    (backupArtifact C A key iv serialize rs).length
  rw [hlen]
  omega

/-- C5 witness: the double-compression theorem applied to the all-ok
three-record environment with the toy codec and cipher; the stored
artifact is 39 bytes while `size` is 5, and the download returns the
singly compressed bytes. -/
theorem c5_double_compression_witness :
    downloadFile
      (performBackup c4env toyCodec toyAEAD [] (List.replicate 16 0)
        (fun rs => rs) "bkt").2.stored
      toyCodec toyAEAD [] (backupPathOf c4env) =
      Except.ok [31, 139, 1, 2, 3] :=
  (c5_double_compression c4env toyCodec toyAEAD [] (List.replicate 16 0)
    (fun rs => rs) "bkt" [1, 2, 3] "signed" rfl rfl rfl rfl rfl
    (by decide) (by decide) (by decide) (by decide) (by decide)
    (by decide)).2.1

end BotSystem
